import Mathlib

/-!
Shallow embedding of the Onchain Message Explorer dashboard (Next.js/React) in
Lean 4, covering its feed state management (`src/app/page.tsx`) and its two
proxy route handlers (`src/app/api/idx/latest/route.ts` and the two unnamed
route files).  React state updates are modelled as pure transformers of an
explicit `FeedState`; each asynchronous fetch is a parameter carrying the
outcome of the network call (`Except` for success/failure), and console
logging is elided as it carries no state.
-/

/-- Message record, from the `Message` interface of `src/app/page.tsx`.
JS numbers that are always integral here are modelled as `Int`. -/
structure Message where
  chainId : Int
  blockNumber : Int
  blockTimestamp : Int
  txnHash : String
  sender : String
  receiver : String
  content : String
  value : Int

deriving instance DecidableEq, Repr for Message

/-- Pagination window, from the `pagination` field of `ApiResponse` in
`src/app/page.tsx` (initial state `{ limit: 10, offset: 0, count: 0 }`). -/
structure Pagination where
  limit : Nat
  offset : Nat
  count : Nat

deriving instance DecidableEq, Repr for Pagination

/-- Raw JS value appearing in raw API message fields (`string | number`). -/
inductive JSNum where
  | num (n : Int)
  | str (s : String)

deriving instance DecidableEq, Repr for JSNum

/-- Raw message shape `RawMessageData` from `src/app/page.tsx` (numeric
fields may arrive stringified). -/
structure RawMessageData where
  chainId : JSNum
  blockNumber : JSNum
  blockTimestamp : JSNum
  txnHash : String
  sender : String
  receiver : String
  content : String
  value : JSNum

deriving instance DecidableEq, Repr for RawMessageData

/-- JSON-like value as consumed by the fetch helpers: arrays at the
positions the code reads are arrays of raw message records. -/
inductive JVal where
  | jarr (xs : List RawMessageData)
  | jobj (fields : List (String × JVal))
  | jstr (s : String)
  | jnum (n : Int)
  | jbool (b : Bool)
  | jnull

/-- The `normalizeMessage` helper of `fetchLatestMessages` /
`fetchSearchMessages` in `src/app/page.tsx`; `toNum` stands for the JS
`Number(...)` coercion applied to possibly-stringified fields. -/
def normalizeMessage (toNum : JSNum → Int) (raw : RawMessageData) : Message :=
  { chainId := toNum raw.chainId
    blockNumber := toNum raw.blockNumber
    blockTimestamp := toNum raw.blockTimestamp
    txnHash := raw.txnHash
    sender := raw.sender
    receiver := raw.receiver
    content := raw.content
    value := toNum raw.value }

/-- JS property access `rawData.k` on a parsed JSON value: defined only on
objects, `undefined` (here `none`) elsewhere. -/
def getJField (raw : JVal) (k : String) : Option JVal :=
  match raw with
  | JVal.jobj fields => (fields.find? (fun p => p.1 == k)).map (fun p => p.2)
  | _ => none

/-- Property access under JS nullish coalescing: a field holding JSON `null`
behaves like an absent field for the `??` chain. -/
def nnField (raw : JVal) (k : String) : Option JVal :=
  match getJField raw k with
  | none => none
  | some JVal.jnull => none
  | some v => some v

/-- Whether a JSON value is an array (`Array.isArray`). -/
def isJArr : JVal → Bool
  | JVal.jarr _ => true
  | _ => false

/-- Whether the field `k` of `raw` is absent or holds a non-array value. -/
def fieldNotArray (raw : JVal) (k : String) : Bool :=
  match getJField raw k with
  | some v => !(isJArr v)
  | none => true

/-- The candidate-selection chain
`rawData.result ?? rawData.messages ?? rawData.data ?? (Array.isArray(rawData) ? rawData : undefined)`
of the fetch helpers in `src/app/page.tsx`. -/
def latestCandidate (raw : JVal) : Option JVal :=
  match nnField raw "result" with
  | some v => some v
  | none =>
    match nnField raw "messages" with
    | some v => some v
    | none =>
      match nnField raw "data" with
      | some v => some v
      | none => if isJArr raw then some raw else none

/-- Body of `fetchLatestMessages` after the response JSON is parsed: locate
the messages array, failing with a generic error when the candidate is not
an array, and normalize each record. -/
def fetchLatestExtract (toNum : JSNum → Int) (raw : JVal) :
    Except String (List Message) :=
  match latestCandidate raw with
  | some (JVal.jarr xs) => Except.ok (xs.map (normalizeMessage toNum))
  | _ => Except.error "Unexpected latest-messages response format"

/-- Component state of `SimIDXTeaser` in `src/app/page.tsx`: one field per
`useState` hook that the verified handlers read or write. -/
structure FeedState where
  messages : List Message
  searchInput : String
  searchQuery : String
  loading : Bool
  loadingMore : Bool
  hasNewMessages : Bool
  newMessageCount : Nat
  pagination : Pagination
  selectedChains : List Nat

deriving instance DecidableEq, Repr for FeedState

/-- A fetch dispatched by a handler, recorded as structured data: either
`fetchLatestMessages limit offset chainIds` or
`fetchSearchMessages content limit offset`. -/
inductive FetchRequest where
  | latest (limit offset : Nat) (chainIds : List Nat)
  | search (content : String) (limit offset : Nat)

deriving instance DecidableEq, Repr for FetchRequest

/-- The count `index === -1 ? data.result.length : index` computed by the
poll interval callback from the probed batch and the locally-known newest
hash. -/
def pollDiff (knownHash : String) (result : List Message) : Nat :=
  match result.findIdx? (fun m => m.txnHash == knownHash) with
  | none => result.length
  | some i => i

/-- Poll interval callback of the poll `useEffect` in `src/app/page.tsx`
(lines 369-385), as a state transformer over the fetch outcome of
`fetchLatestMessages(1, 0, selectedChains)`.  A failed fetch is caught and
only logged; an empty local list returns early. -/
def pollTick (st : FeedState) (r : Except String (List Message)) : FeedState :=
  match r with
  | Except.error _ => st
  | Except.ok result =>
    match st.messages with
    | [] => st
    | m0 :: _ =>
      let diff := pollDiff m0.txnHash result
      if 0 < diff then
        { st with newMessageCount := diff, hasNewMessages := true }
      else st

/-- Guard of the poll `useEffect`: `if (searchQuery) return` — polling runs
only while the executed search query is the empty string (JS truthiness of a
string). -/
def pollEffectActive (searchQuery : String) : Bool :=
  searchQuery == ""

/-- The fetch dispatched by `handleRefresh`:
`fetchLatestMessages(newMessageCount || pagination.limit, 0, selectedChains)`
(`x || y` picks `y` when the count is 0). -/
def refreshRequest (st : FeedState) : FetchRequest :=
  FetchRequest.latest
    (if st.newMessageCount = 0 then st.pagination.limit else st.newMessageCount)
    0 st.selectedChains

/-- `handleRefresh` of `src/app/page.tsx` (lines 390-404): a no-op unless
`hasNewMessages`; otherwise filter the fetched batch against the existing
list by `txnHash`, prepend the remainder, clear the flag and the count.
The `finally` clause resets `loading`. -/
def handleRefresh (st : FeedState) (r : Except String (List Message)) :
    FeedState :=
  if st.hasNewMessages then
    match r with
    | Except.error _ => { st with loading := false }
    | Except.ok result =>
      let unique := result.filter
        (fun m => !(st.messages.any (fun msg => msg.txnHash == m.txnHash)))
      { st with
          messages := unique ++ st.messages
          hasNewMessages := false
          newMessageCount := 0
          loading := false }
  else st

/-- The fetch dispatched by `handleLoadMore`: the search endpoint when a
search query is active (JS-truthy `searchQuery`), otherwise the latest
endpoint, both at `offset + limit`. -/
def loadMoreRequest (st : FeedState) : FetchRequest :=
  let newOffset := st.pagination.offset + st.pagination.limit
  if st.searchQuery == "" then
    FetchRequest.latest st.pagination.limit newOffset st.selectedChains
  else
    FetchRequest.search st.searchQuery st.pagination.limit newOffset

/-- `handleLoadMore` of `src/app/page.tsx` (lines 406-420): append the
fetched window and advance `offset` by `limit`; on failure only the
`loadingMore` flag is reset. -/
def handleLoadMore (st : FeedState) (r : Except String (List Message)) :
    FeedState :=
  let newOffset := st.pagination.offset + st.pagination.limit
  match r with
  | Except.error _ => { st with loadingMore := false }
  | Except.ok result =>
    { st with
        messages := st.messages ++ result
        pagination := { st.pagination with offset := newOffset }
        loadingMore := false }

/-- JS `s.toLowerCase()`, modelled character-wise over the string data
(ASCII-faithful). -/
def jsToLower (s : String) : String :=
  ⟨s.data.map Char.toLower⟩

/-- JS `s.trim()`: strip whitespace from both ends. -/
def jsTrim (s : String) : String :=
  ⟨((s.data.dropWhile Char.isWhitespace).reverse.dropWhile
      Char.isWhitespace).reverse⟩

/-- The fetch dispatched by `handleSearch`: for a blank (after `trim`)
query, `fetchLatestMessages(pagination.limit, 0, selectedChains)`;
otherwise `fetchSearchMessages(query, pagination.limit, 0)`. -/
def searchFetchRequest (st : FeedState) (query : String) : FetchRequest :=
  if jsTrim query == "" then
    FetchRequest.latest st.pagination.limit 0 st.selectedChains
  else
    FetchRequest.search query st.pagination.limit 0

/-- `handleSearch` of `src/app/page.tsx` (lines 422-449): store the query,
reset `offset` to 0, and replace the list with the fetch result (which
fetch is dispatched is `searchFetchRequest`); the `finally` clause resets
`loading`, and a failure leaves the list unchanged. -/
def handleSearch (st : FeedState) (query : String)
    (r : Except String (List Message)) : FeedState :=
  let st1 := { st with
      searchQuery := query
      pagination := { st.pagination with offset := 0 } }
  match r with
  | Except.error _ => { st1 with loading := false }
  | Except.ok result => { st1 with messages := result, loading := false }

/-- Boolean infix test on character lists, modelling JS `String.includes`. -/
def charsContain : List Char → List Char → Bool
  | [], pat => pat.isEmpty
  | c :: t, pat => pat.isPrefixOf (c :: t) || charsContain t pat

/-- JS `s.includes(pat)`. -/
def strIncludes (s pat : String) : Bool :=
  charsContain s.toList pat.toList

/-- Predicate of the `filteredMessages` client-side filter in
`src/app/page.tsx` (lines 451-457). -/
def messageMatches (searchQuery : String) (m : Message) : Bool :=
  searchQuery == ""
    || strIncludes (jsToLower m.content) (jsToLower searchQuery)
    || strIncludes (jsToLower m.sender) (jsToLower searchQuery)
    || strIncludes (jsToLower m.receiver) (jsToLower searchQuery)

/-- `filteredMessages` of `src/app/page.tsx`: the list actually rendered. -/
def filteredMessages (searchQuery : String) (ms : List Message) :
    List Message :=
  ms.filter (messageMatches searchQuery)

/-- `loadInitial` of the mount `useEffect` in `src/app/page.tsx`
(lines 328-343), over the outcome of
`fetchLatestMessages(pagination.limit, 0, selectedChains)`: on success
install the list and the reported pagination; on failure log only; either
way `finally` resets `loading`. -/
def loadInitial (st : FeedState)
    (r : Except String (List Message × Pagination)) : FeedState :=
  match r with
  | Except.error _ => { st with loading := false }
  | Except.ok d =>
    { st with messages := d.1, pagination := d.2, loading := false }

/-- Composition of the parsing stage of `fetchLatestMessages` with
`loadInitial`: `pg` stands for the pagination the success path installs
(`rawData.pagination ?? { limit, offset, count }`), which only matters when
extraction succeeds. -/
def loadInitialRaw (toNum : JSNum → Int) (st : FeedState) (raw : JVal)
    (pg : Pagination) : FeedState :=
  match fetchLatestExtract toNum raw with
  | Except.error _ => { st with loading := false }
  | Except.ok ms => { st with messages := ms, pagination := pg, loading := false }

/-! ## Proxy route handlers -/

/-- Query parameters of an inbound proxy request, as key/value pairs;
`URLSearchParams.get` returns the first value for a key, or null. -/
abbrev SearchParams := List (String × String)

/-- `searchParams.get(k)` — first matching value or `none`. -/
def getParam (ps : SearchParams) (k : String) : Option String :=
  (ps.find? (fun p => p.1 == k)).map (fun p => p.2)

/-- Outbound path and query built by the `GET` handler of
`src/app/api/idx/latest/route.ts`: limit and offset with defaults, nothing
else forwarded. -/
def latestRouteURL (ps : SearchParams) : String :=
  let limit := (getParam ps "limit").getD "10"
  let offset := (getParam ps "offset").getD "0"
  "latest-messages?limit=" ++ limit ++ "&offset=" ++ offset

/-- `GET` handler of `src/app/api/idx/latest/route.ts`: fetch the outbound
URL and relay the upstream JSON body and HTTP status unchanged;
`upstream` maps the outbound path-and-query to the upstream response. -/
def latestRouteGET (ps : SearchParams) (upstream : String → Nat × JVal) :
    Nat × JVal :=
  upstream (latestRouteURL ps)

/-- Outbound path and query built by the `GET` handler of the unnamed
latest-route variant (`src/unnamed/part_000`): limit and offset with
defaults, plus `chainIds` when present with a JS-truthy (non-empty)
value. -/
def latestVariantURL (ps : SearchParams) : String :=
  let limit := (getParam ps "limit").getD "10"
  let offset := (getParam ps "offset").getD "0"
  let chainIds := getParam ps "chainIds"
  let qs := "limit=" ++ limit ++ "&offset=" ++ offset ++
    (match chainIds with
     | some s => if s == "" then "" else "&chainIds=" ++ s
     | none => "")
  "latest-messages?" ++ qs

/-- `GET` handler of `src/unnamed/part_000`: relay the upstream response
for the variant outbound URL. -/
def latestVariantGET (ps : SearchParams) (upstream : String → Nat × JVal) :
    Nat × JVal :=
  upstream (latestVariantURL ps)

/-- Error body `{ error: ... }` returned by the search route on a missing
or empty `content` parameter. -/
def contentErrorBody : JVal :=
  JVal.jobj [("error", JVal.jstr "content query param required")]

/-- `GET` handler of the unnamed search route (`src/unnamed/part_001`):
reject a missing or empty `content` with HTTP 400, otherwise forward
`content` (URL-encoded by `enc`, standing for `encodeURIComponent`),
`limit` and `offset` with defaults, relaying the upstream body and
status. -/
def searchRouteGET (enc : String → String) (ps : SearchParams)
    (upstream : String → Nat × JVal) : Nat × JVal :=
  match getParam ps "content" with
  | none => (400, contentErrorBody)
  | some c =>
    if c == "" then (400, contentErrorBody)
    else
      let limit := (getParam ps "limit").getD "10"
      let offset := (getParam ps "offset").getD "0"
      upstream ("search-messages?content=" ++ enc c ++ "&limit=" ++ limit
        ++ "&offset=" ++ offset)

/-! ## Concrete values used in counterexamples and witnesses -/

/-- A message with a given hash and otherwise fixed fields. -/
def mkMsg (h : String) : Message :=
  { chainId := 1, blockNumber := 0, blockTimestamp := 0, txnHash := h
    sender := "0xsender", receiver := "0xreceiver", content := "gm", value := 0 }

/-- A baseline component state holding the messages given. -/
def mkState (ms : List Message) : FeedState :=
  { messages := ms, searchInput := "", searchQuery := "", loading := false
    loadingMore := false, hasNewMessages := false, newMessageCount := 0
    pagination := { limit := 10, offset := 0, count := 0 }
    selectedChains := [1, 8453] }

/-! ## Helper lemmas -/

/-- The client-side filter predicate accepts everything when no search query
is active. -/
theorem messageMatches_empty (m : Message) : messageMatches "" m = true := by
  simp [messageMatches]

/-- With no active search query the rendered list is the stored list. -/
theorem filteredMessages_empty (ms : List Message) :
    filteredMessages "" ms = ms :=
  List.filter_eq_self.mpr (fun m _ => messageMatches_empty m)

/-- A field reported non-array by `fieldNotArray` contributes to the
nullish-coalescing chain either nothing or a non-array value. -/
theorem nnField_of_fieldNotArray (raw : JVal) (k : String)
    (h : fieldNotArray raw k = true) :
    nnField raw k = none ∨ ∃ v, nnField raw k = some v ∧ isJArr v = false := by
  unfold fieldNotArray at h
  unfold nnField
  cases hg : getJField raw k with
  | none => exact Or.inl rfl
  | some v =>
    rw [hg] at h
    cases v with
    | jnull => exact Or.inl rfl
    | jarr xs => simp [isJArr] at h
    | jobj fields => exact Or.inr ⟨_, rfl, rfl⟩
    | jstr s => exact Or.inr ⟨_, rfl, rfl⟩
    | jnum n => exact Or.inr ⟨_, rfl, rfl⟩
    | jbool b => exact Or.inr ⟨_, rfl, rfl⟩

/-! ## Claim theorems -/

/-- C2: for a non-empty local list, the count computed by the poll tick
equals the index `k` of the first fetched message whose `txnHash` matches
the locally-known newest hash when `k > 0`, and equals the length of the
probed batch when no fetched message matches; in either positive case
`hasNewMessages` is set. -/
theorem pollTick_newCount_correct (st : FeedState) (fetched : List Message)
    (m0 : Message) (rest : List Message) (hm : st.messages = m0 :: rest) :
    (∀ k, fetched.findIdx? (fun m => m.txnHash == m0.txnHash) = some k →
      0 < k →
      (pollTick st (Except.ok fetched)).newMessageCount = k ∧
      (pollTick st (Except.ok fetched)).hasNewMessages = true) ∧
    (fetched.findIdx? (fun m => m.txnHash == m0.txnHash) = none →
      pollDiff m0.txnHash fetched = fetched.length ∧
      (0 < fetched.length →
        (pollTick st (Except.ok fetched)).newMessageCount = fetched.length ∧
        (pollTick st (Except.ok fetched)).hasNewMessages = true)) := by
  constructor
  · intro k hk hkpos
    have hd : pollDiff m0.txnHash fetched = k := by simp [pollDiff, hk]
    simp [pollTick, hm, hd, hkpos]
  · intro hnone
    have hd : pollDiff m0.txnHash fetched = fetched.length := by
      simp [pollDiff, hnone]
    refine ⟨hd, fun hlen => ?_⟩
    simp [pollTick, hm, hd, hlen]

/-- C2 witness: the worked example of the spec — local list `[0xA, 0xB]`,
poll response `[0xC, 0xA]` — yields count 1 and raises the flag. -/
theorem pollTick_newCount_correct_witness :
    ((Except.ok [mkMsg "0xC", mkMsg "0xA"] :
        Except String (List Message)) = Except.ok [mkMsg "0xC", mkMsg "0xA"]) ∧
    (∀ k, [mkMsg "0xC", mkMsg "0xA"].findIdx?
        (fun m => m.txnHash == (mkMsg "0xA").txnHash) = some k →
      0 < k →
      (pollTick (mkState [mkMsg "0xA", mkMsg "0xB"])
        (Except.ok [mkMsg "0xC", mkMsg "0xA"])).newMessageCount = k ∧
      (pollTick (mkState [mkMsg "0xA", mkMsg "0xB"])
        (Except.ok [mkMsg "0xC", mkMsg "0xA"])).hasNewMessages = true) :=
  ⟨rfl, (pollTick_newCount_correct (mkState [mkMsg "0xA", mkMsg "0xB"])
    [mkMsg "0xC", mkMsg "0xA"] (mkMsg "0xA") [mkMsg "0xB"] rfl).1⟩

/-- C6: when the first fetched message carries the feed's current newest
hash, the poll tick leaves `hasNewMessages` false and `newMessageCount`
unchanged. -/
theorem pollTick_matchingHead_noFlag (st : FeedState) (m0 f0 : Message)
    (rest frest : List Message) (hm : st.messages = m0 :: rest)
    (hhash : f0.txnHash = m0.txnHash)
    (hflag : st.hasNewMessages = false) :
    (pollTick st (Except.ok (f0 :: frest))).hasNewMessages = false ∧
    (pollTick st (Except.ok (f0 :: frest))).newMessageCount
      = st.newMessageCount := by
  have hd : pollDiff m0.txnHash (f0 :: frest) = 0 := by
    simp [pollDiff, List.findIdx?_cons, hhash]
  have hst : pollTick st (Except.ok (f0 :: frest)) = st := by
    simp [pollTick, hm, hd]
  rw [hst]
  exact ⟨hflag, rfl⟩

/-- C6 witness: feed `[0xA, 0xB]`, poll response starting with `0xA`. -/
theorem pollTick_matchingHead_noFlag_witness :
    (mkState [mkMsg "0xA", mkMsg "0xB"]).hasNewMessages = false ∧
    (pollTick (mkState [mkMsg "0xA", mkMsg "0xB"])
      (Except.ok [mkMsg "0xA"])).hasNewMessages = false ∧
    (pollTick (mkState [mkMsg "0xA", mkMsg "0xB"])
      (Except.ok [mkMsg "0xA"])).newMessageCount
      = (mkState [mkMsg "0xA", mkMsg "0xB"]).newMessageCount :=
  ⟨rfl, pollTick_matchingHead_noFlag (mkState [mkMsg "0xA", mkMsg "0xB"])
    (mkMsg "0xA") (mkMsg "0xA") [mkMsg "0xB"] [] rfl rfl rfl⟩

/-- C9: a poll tick only ever touches `hasNewMessages` and
`newMessageCount`: whatever the fetch outcome, the visible message list,
the pagination state and every other field are left unchanged. -/
theorem pollTick_frame (st : FeedState) (r : Except String (List Message)) :
    (pollTick st r).messages = st.messages ∧
    (pollTick st r).pagination = st.pagination ∧
    (pollTick st r).searchQuery = st.searchQuery ∧
    (pollTick st r).searchInput = st.searchInput ∧
    (pollTick st r).loading = st.loading ∧
    (pollTick st r).loadingMore = st.loadingMore ∧
    (pollTick st r).selectedChains = st.selectedChains := by
  cases r with
  | error e => simp [pollTick]
  | ok result =>
    cases hm : st.messages with
    | nil => simp [pollTick, hm]
    | cons m0 tl =>
      by_cases h : 0 < pollDiff m0.txnHash result <;>
        simp [pollTick, hm, h]

/-- C4: a successful load-more advances `offset` by exactly the current
`limit` (keeping `limit`), a strict increase whenever the limit is
positive, and appends the fetched window after the unchanged existing
list. -/
theorem handleLoadMore_appends (st : FeedState) (fetched : List Message) :
    (handleLoadMore st (Except.ok fetched)).pagination.offset
      = st.pagination.offset + st.pagination.limit ∧
    (0 < st.pagination.limit →
      st.pagination.offset
        < (handleLoadMore st (Except.ok fetched)).pagination.offset) ∧
    (handleLoadMore st (Except.ok fetched)).pagination.limit
      = st.pagination.limit ∧
    (handleLoadMore st (Except.ok fetched)).messages
      = st.messages ++ fetched ∧
    (handleLoadMore st (Except.ok fetched)).messages.take st.messages.length
      = st.messages := by
  refine ⟨rfl, fun h => ?_, rfl, rfl, ?_⟩
  · show st.pagination.offset < st.pagination.offset + st.pagination.limit
    omega
  · show (st.messages ++ fetched).take st.messages.length = st.messages
    simp

/-- C4 witness: load-more on a two-message list with limit 10 moves the
offset from 0 to 10 and appends. -/
theorem handleLoadMore_appends_witness :
    0 < (mkState [mkMsg "0xA", mkMsg "0xB"]).pagination.limit ∧
    (handleLoadMore (mkState [mkMsg "0xA", mkMsg "0xB"])
        (Except.ok [mkMsg "0xC"])).pagination.offset
      = (mkState [mkMsg "0xA", mkMsg "0xB"]).pagination.offset
        + (mkState [mkMsg "0xA", mkMsg "0xB"]).pagination.limit ∧
    (handleLoadMore (mkState [mkMsg "0xA", mkMsg "0xB"])
        (Except.ok [mkMsg "0xC"])).messages
      = (mkState [mkMsg "0xA", mkMsg "0xB"]).messages ++ [mkMsg "0xC"] :=
  ⟨by decide,
    (handleLoadMore_appends (mkState [mkMsg "0xA", mkMsg "0xB"])
      [mkMsg "0xC"]).1,
    (handleLoadMore_appends (mkState [mkMsg "0xA", mkMsg "0xB"])
      [mkMsg "0xC"]).2.2.2.1⟩

/-- C5: submitting the empty search string resets the offset to 0, stores
the empty query, dispatches an unfiltered latest-messages fetch at offset
0, and replaces the displayed list with its result (rendered unfiltered,
with polling re-enabled). -/
theorem handleSearch_empty_resets (st : FeedState) (fetched : List Message) :
    (handleSearch st "" (Except.ok fetched)).pagination.offset = 0 ∧
    (handleSearch st "" (Except.ok fetched)).searchQuery = "" ∧
    (handleSearch st "" (Except.ok fetched)).messages = fetched ∧
    searchFetchRequest st ""
      = FetchRequest.latest st.pagination.limit 0 st.selectedChains ∧
    filteredMessages "" fetched = fetched ∧
    pollEffectActive "" = true := by
  refine ⟨rfl, rfl, rfl, ?_, filteredMessages_empty fetched, rfl⟩
  unfold searchFetchRequest
  rfl

/-- C10: submitting a whitespace-only query fetches the unfiltered latest
messages at offset 0, yet stores the whitespace string as the active
query, which suspends polling (unlike the empty query) and applies the
client-side substring filter with the whitespace query, so a message
without whitespace is hidden — behaviour distinct from submitting "". -/
theorem handleSearch_whitespace_query (st : FeedState)
    (fetched : List Message) :
    (handleSearch st " " (Except.ok fetched)).searchQuery = " " ∧
    (handleSearch st " " (Except.ok fetched)).pagination.offset = 0 ∧
    (handleSearch st " " (Except.ok fetched)).messages = fetched ∧
    searchFetchRequest st " "
      = FetchRequest.latest st.pagination.limit 0 st.selectedChains ∧
    pollEffectActive " " = false ∧
    pollEffectActive "" = true ∧
    filteredMessages " " [mkMsg "0xA"] = [] ∧
    filteredMessages "" [mkMsg "0xA"] = [mkMsg "0xA"] := by
  refine ⟨rfl, rfl, rfl, ?_, by decide, rfl, by decide, by decide⟩
  unfold searchFetchRequest
  rfl

/-- Concrete pre-refresh state for the C1 analysis: one message `0xA` with
the new-messages flag raised. -/
def cexRefreshSt : FeedState :=
  { mkState [mkMsg "0xA"] with hasNewMessages := true, newMessageCount := 2 }

/-- C1 counterexample: the prior list `[0xA]` has distinct hashes, but a
refresh whose fetched batch repeats the hash `0xC` merges to
`[0xC, 0xC, 0xA]`, which contains `0xC` twice — the deduplication filter
only checks the fetched batch against the existing list, not against
itself. -/
theorem handleRefresh_duplicate_cex :
    (cexRefreshSt.messages.map Message.txnHash).Nodup ∧
    (handleRefresh cexRefreshSt
        (Except.ok [mkMsg "0xC", mkMsg "0xC"])).messages.map Message.txnHash
      = ["0xC", "0xC", "0xA"] ∧
    ¬ ((handleRefresh cexRefreshSt
        (Except.ok [mkMsg "0xC", mkMsg "0xC"])).messages.map
          Message.txnHash).Nodup := by
  refine ⟨by decide, by decide, by decide⟩

/-- C1 (amended): refresh introduces no duplicate `txnHash` provided the
prior list has distinct hashes and the fetched batch itself has distinct
hashes. -/
theorem handleRefresh_nodup_hashes (st : FeedState)
    (r : Except String (List Message))
    (hprior : (st.messages.map Message.txnHash).Nodup)
    (hfetch : ∀ l, r = Except.ok l → (l.map Message.txnHash).Nodup) :
    ((handleRefresh st r).messages.map Message.txnHash).Nodup := by
  unfold handleRefresh
  by_cases hflag : st.hasNewMessages = true
  · cases r with
    | error e => simpa [hflag] using hprior
    | ok result =>
      have hres := hfetch result rfl
      simp only [hflag, if_true]
      rw [List.map_append, List.nodup_append]
      refine ⟨?_, hprior, ?_⟩
      · exact List.Nodup.sublist
          ((List.filter_sublist result).map Message.txnHash) hres
      · intro a ha hb
        rw [List.mem_map] at ha hb
        obtain ⟨m, hmem, rfl⟩ := ha
        obtain ⟨msg, hmsg, heq⟩ := hb
        rw [List.mem_filter] at hmem
        have hany : st.messages.any
            (fun msg => msg.txnHash == m.txnHash) = false := by
          simpa using hmem.2
        have := List.any_eq_false.mp hany msg hmsg
        simp only [beq_iff_eq] at this
        exact this heq
  · simp only [hflag, if_false]
    simpa [Bool.not_eq_true] using hprior

/-- C1 witness: with a duplicate-free fetched batch `[0xC, 0xD]` the merged
list keeps distinct hashes. -/
theorem handleRefresh_nodup_hashes_witness :
    (cexRefreshSt.messages.map Message.txnHash).Nodup ∧
    ((handleRefresh cexRefreshSt
        (Except.ok [mkMsg "0xC", mkMsg "0xD"])).messages.map
          Message.txnHash).Nodup :=
  ⟨by decide, handleRefresh_nodup_hashes cexRefreshSt
    (Except.ok [mkMsg "0xC", mkMsg "0xD"]) (by decide)
    (fun l hl => by cases hl; decide)⟩

/-- C7: when the response body is not an array and none of the keys
`result`, `messages`, `data` holds an array, the fetch helper fails with a
generic error, and the calling handler leaves the displayed list unchanged
and exits the loading state. -/
theorem fetchLatest_nonArray_error (toNum : JSNum → Int) (st : FeedState)
    (raw : JVal) (pg : Pagination)
    (h0 : isJArr raw = false)
    (h1 : fieldNotArray raw "result" = true)
    (h2 : fieldNotArray raw "messages" = true)
    (h3 : fieldNotArray raw "data" = true) :
    (∃ e, fetchLatestExtract toNum raw = Except.error e) ∧
    (loadInitialRaw toNum st raw pg).messages = st.messages ∧
    (loadInitialRaw toNum st raw pg).loading = false := by
  have hcand : latestCandidate raw = none ∨
      ∃ v, latestCandidate raw = some v ∧ isJArr v = false := by
    unfold latestCandidate
    rcases nnField_of_fieldNotArray raw "result" h1 with hr | ⟨v, hv, hva⟩
    · rw [hr]
      rcases nnField_of_fieldNotArray raw "messages" h2 with hs | ⟨v, hv, hva⟩
      · rw [hs]
        rcases nnField_of_fieldNotArray raw "data" h3 with hd | ⟨v, hv, hva⟩
        · rw [hd, h0]
          exact Or.inl rfl
        · rw [hv]
          exact Or.inr ⟨v, rfl, hva⟩
      · rw [hv]
        exact Or.inr ⟨v, rfl, hva⟩
    · rw [hv]
      exact Or.inr ⟨v, rfl, hva⟩
  have herr : ∃ e, fetchLatestExtract toNum raw = Except.error e := by
    unfold fetchLatestExtract
    rcases hcand with hc | ⟨v, hc, hva⟩
    · rw [hc]
      exact ⟨_, rfl⟩
    · rw [hc]
      cases v with
      | jarr xs => simp [isJArr] at hva
      | jobj fields => exact ⟨_, rfl⟩
      | jstr s => exact ⟨_, rfl⟩
      | jnum n => exact ⟨_, rfl⟩
      | jbool b => exact ⟨_, rfl⟩
      | jnull => exact ⟨_, rfl⟩
  obtain ⟨e, he⟩ := herr
  exact ⟨⟨e, he⟩, by simp [loadInitialRaw, he], by simp [loadInitialRaw, he]⟩

/-- C7 witness: the body `{ result: 5 }` is rejected and the handler keeps
the prior list while clearing the loading flag. -/
theorem fetchLatest_nonArray_error_witness :
    isJArr (JVal.jobj [("result", JVal.jnum 5)]) = false ∧
    ((∃ e, fetchLatestExtract (fun _ => 0)
        (JVal.jobj [("result", JVal.jnum 5)]) = Except.error e) ∧
      (loadInitialRaw (fun _ => 0) (mkState [mkMsg "0xA"])
        (JVal.jobj [("result", JVal.jnum 5)])
        { limit := 10, offset := 0, count := 0 }).messages
        = (mkState [mkMsg "0xA"]).messages ∧
      (loadInitialRaw (fun _ => 0) (mkState [mkMsg "0xA"])
        (JVal.jobj [("result", JVal.jnum 5)])
        { limit := 10, offset := 0, count := 0 }).loading = false) :=
  ⟨rfl, fetchLatest_nonArray_error (fun _ => 0) (mkState [mkMsg "0xA"])
    (JVal.jobj [("result", JVal.jnum 5)])
    { limit := 10, offset := 0, count := 0 } rfl rfl rfl rfl⟩

/-- C3 counterexample: with `limit=5`, `offset=3` and `chainIds=1,8453` all
present, the handler of `src/app/api/idx/latest/route.ts` forwards only
`limit` and `offset` — its outbound URL does not mention `chainIds`, so the
upstream response it relays is the one for the chainIds-less query.  Only
the unnamed variant handler (`src/unnamed/part_000`) forwards
`chainIds`. -/
theorem latestRoute_chainIds_cex :
    latestRouteURL [("limit", "5"), ("offset", "3"), ("chainIds", "1,8453")]
      = "latest-messages?limit=5&offset=3" ∧
    strIncludes
      (latestRouteURL [("limit", "5"), ("offset", "3"), ("chainIds", "1,8453")])
      "chainIds" = false ∧
    latestRouteGET [("limit", "5"), ("offset", "3"), ("chainIds", "1,8453")]
      (fun u => (200, JVal.jstr u))
      = (200, JVal.jstr "latest-messages?limit=5&offset=3") ∧
    latestVariantURL [("limit", "5"), ("offset", "3"), ("chainIds", "1,8453")]
      = "latest-messages?limit=5&offset=3&chainIds=1,8453" :=
  ⟨rfl, by decide, rfl, rfl⟩

/-- C3 (amended): both latest handlers accept `limit` and `offset`, default
them to 10 and 0, forward them verbatim to the external latest-messages
endpoint and relay the upstream body and status unchanged; the handler at
`src/app/api/idx/latest/route.ts` ignores `chainIds` (its outbound URL is
unchanged by a `chainIds` parameter), while the unnamed variant handler
additionally forwards `chainIds` verbatim when present with a non-empty
value. -/
theorem latestProxy_forwarding (ps : SearchParams)
    (upstream : String → Nat × JVal) :
    latestRouteGET ps upstream = upstream (latestRouteURL ps) ∧
    latestVariantGET ps upstream = upstream (latestVariantURL ps) ∧
    (∀ c, latestRouteURL (("chainIds", c) :: ps) = latestRouteURL ps) ∧
    (getParam ps "limit" = none → getParam ps "offset" = none →
      latestRouteURL ps = "latest-messages?limit=10&offset=0" ∧
      (getParam ps "chainIds" = none →
        latestVariantURL ps = "latest-messages?limit=10&offset=0")) ∧
    (∀ l o, getParam ps "limit" = some l → getParam ps "offset" = some o →
      latestRouteURL ps = "latest-messages?limit=" ++ l ++ "&offset=" ++ o ∧
      (∀ c, getParam ps "chainIds" = some c → c ≠ "" →
        latestVariantURL ps
          = "latest-messages?" ++ ("limit=" ++ l ++ "&offset=" ++ o
              ++ ("&chainIds=" ++ c)))) := by
  refine ⟨rfl, rfl, fun c => rfl, fun hl ho => ⟨?_, fun hc => ?_⟩,
    fun l o hl ho => ⟨?_, fun c hc hcne => ?_⟩⟩
  · simp [latestRouteURL, hl, ho]
  · simp [latestVariantURL, hl, ho, hc]
  · simp [latestRouteURL, hl, ho]
  · have hcf : (c == "") = false := beq_eq_false_iff_ne.mpr hcne
    simp [latestVariantURL, hl, ho, hc, hcf]

/-- C3 witness: the counterexample request instantiates the amended
contract — route.ts forwards limit/offset only, the variant also forwards
`chainIds=1,8453`. -/
theorem latestProxy_forwarding_witness :
    latestRouteURL [("limit", "5"), ("offset", "3"), ("chainIds", "1,8453")]
      = "latest-messages?limit=" ++ "5" ++ "&offset=" ++ "3" ∧
    latestVariantURL [("limit", "5"), ("offset", "3"), ("chainIds", "1,8453")]
      = "latest-messages?" ++ ("limit=" ++ "5" ++ "&offset=" ++ "3"
          ++ ("&chainIds=" ++ "1,8453")) :=
  ⟨((latestProxy_forwarding
      [("limit", "5"), ("offset", "3"), ("chainIds", "1,8453")]
      (fun u => (200, JVal.jstr u))).2.2.2.2 "5" "3" rfl rfl).1,
   ((latestProxy_forwarding
      [("limit", "5"), ("offset", "3"), ("chainIds", "1,8453")]
      (fun u => (200, JVal.jstr u))).2.2.2.2 "5" "3" rfl rfl).2
      "1,8453" rfl (by decide)⟩

/-- C8: the search proxy answers HTTP 400 with an error body whenever
`content` is missing or empty, and only for a non-empty `content` does it
forward the encoded content together with `limit` and `offset` (defaults
10 and 0) to the external search-messages endpoint, relaying the upstream
body and status. -/
theorem searchProxy_contract (enc : String → String) (ps : SearchParams)
    (upstream : String → Nat × JVal) :
    (getParam ps "content" = none →
      searchRouteGET enc ps upstream = (400, contentErrorBody)) ∧
    (getParam ps "content" = some "" →
      searchRouteGET enc ps upstream = (400, contentErrorBody)) ∧
    (∀ c, getParam ps "content" = some c → c ≠ "" →
      (∀ l o, getParam ps "limit" = some l → getParam ps "offset" = some o →
        searchRouteGET enc ps upstream
          = upstream ("search-messages?content=" ++ enc c ++ "&limit=" ++ l
              ++ "&offset=" ++ o)) ∧
      (getParam ps "limit" = none → getParam ps "offset" = none →
        searchRouteGET enc ps upstream
          = upstream ("search-messages?content=" ++ enc c ++ "&limit="
              ++ "10" ++ "&offset=" ++ "0"))) := by
  refine ⟨fun h => ?_, fun h => ?_,
    fun c hc hcne => ⟨fun l o hl ho => ?_, fun hl ho => ?_⟩⟩
  · simp [searchRouteGET, h]
  · simp [searchRouteGET, h]
  · have hcf : (c == "") = false := beq_eq_false_iff_ne.mpr hcne
    simp [searchRouteGET, hc, hcf, hl, ho]
  · have hcf : (c == "") = false := beq_eq_false_iff_ne.mpr hcne
    simp [searchRouteGET, hc, hcf, hl, ho]

/-- C8 witness: a request without `content` is rejected with 400, and a
request with `content=gm`, `limit=7`, `offset=2` is forwarded. -/
theorem searchProxy_contract_witness :
    getParam [("limit", "7"), ("offset", "2")] "content" = none ∧
    searchRouteGET (fun s => s) [("limit", "7"), ("offset", "2")]
      (fun u => (200, JVal.jstr u)) = (400, contentErrorBody) ∧
    searchRouteGET (fun s => s)
      [("content", "gm"), ("limit", "7"), ("offset", "2")]
      (fun u => (200, JVal.jstr u))
      = (fun u => (200, JVal.jstr u))
          ("search-messages?content=" ++ (fun s : String => s) "gm"
            ++ "&limit=" ++ "7" ++ "&offset=" ++ "2") :=
  ⟨rfl,
   (searchProxy_contract (fun s => s) [("limit", "7"), ("offset", "2")]
      (fun u => (200, JVal.jstr u))).1 rfl,
   ((searchProxy_contract (fun s => s)
      [("content", "gm"), ("limit", "7"), ("offset", "2")]
      (fun u => (200, JVal.jstr u))).2.2 "gm" rfl (by decide)).1
      "7" "2" rfl rfl⟩
